import Mathlib

/-!
Verification of the service-virtualization engine described by the design
document of this repository.  The repository ships only the engine's test
suite (`mbTest/cli/hostTest.js`); the engine itself (Imposter Registry, Stub
Matching Engine, Response Resolver, Snapshot Store, Protocol Adapters) is not
present, so every engine definition below is modelled from the design
document's words, as flagged in each doc comment.
-/

namespace Mountebank

/-- Modelled from the spec: §7 error taxonomy of the engine, whose
implementation is missing from the repository (only tests are present). -/
inductive EngineError where
  | PortInUse
  | BindFailure
  | InvalidProtocol
  | ProxyUnreachable
  | NotFound
  | MalformedSnapshot
deriving DecidableEq, Repr

/-- Modelled from the spec: §2 lists the three protocol variants of the
missing Protocol Adapter layer (HTTP-like, raw TCP, SMTP). -/
inductive Protocol where
  | http
  | tcp
  | smtp
deriving DecidableEq, Repr

/-- Modelled from the spec: configurations name their protocol textually; an
unrecognised protocol is the missing Registry's `InvalidProtocol` failure. -/
def parseProtocol (s : String) : Option Protocol :=
  if s = "http" then some Protocol.http
  else if s = "tcp" then some Protocol.tcp
  else if s = "smtp" then some Protocol.smtp
  else none

/-- Modelled from the spec: §3 protocol-neutral Request envelope used by the
missing Stub Matching Engine (method/verb, path/key, body). -/
structure Request where
  method : String
  path : String
  body : String
deriving DecidableEq, Repr

/-- Modelled from the spec: field lookup on the protocol-neutral Request,
used by predicates of the missing matching engine. -/
def Request.fieldValue (r : Request) (f : String) : String :=
  if f = "method" then r.method
  else if f = "path" then r.path
  else if f = "body" then r.body
  else ""

/-- Modelled from the spec: §3 a Predicate is a condition evaluated against
an incoming Request; the missing engine's concrete predicate forms are not
shown, so a minimal equality/left-boundary language is used. -/
inductive Predicate where
  | equals (field value : String)
  | startsWith (field value : String)
deriving DecidableEq, Repr

/-- Modelled from the spec: evaluation of a Predicate against a Request. -/
def Predicate.eval (p : Predicate) (r : Request) : Bool :=
  match p with
  | .equals f v => r.fieldValue f == v
  | .startsWith f v => (r.fieldValue f).startsWith v

/-- Modelled from the spec: §3 ProxyMode of the missing Response Resolver. -/
inductive ProxyMode where
  | proxyOnce
  | proxyAlways
  | proxyTransparent
deriving DecidableEq, Repr

/-- Modelled from the spec: §3 ResponseSpec tagged variant of the missing
engine: `is` (literal payload), `proxy` (forwarding instruction), `inject`
(opaque extension point). -/
inductive ResponseSpec where
  | is (body : String)
  | proxy (targetOrigin : String) (mode : ProxyMode)
  | inject (source : String)
deriving DecidableEq, Repr

/-- Recognises a live `proxy` entry. -/
def ResponseSpec.isProxyEntry : ResponseSpec → Bool
  | .proxy _ _ => true
  | _ => false

/-- Recognises a recorded `is` entry. -/
def ResponseSpec.isIsEntry : ResponseSpec → Bool
  | .is _ => true
  | _ => false

/-- Modelled from the spec: §3 Stub of the missing engine: ANDed predicates,
ordered responses, and a cursor into the responses. -/
structure Stub where
  predicates : List Predicate
  responses : List ResponseSpec
  cursor : Nat
deriving DecidableEq, Repr

/-- Modelled from the spec: §3 the response selected by the cursor, which
wraps to the last entry once exhausted. -/
def Stub.currentResponse (s : Stub) : Option ResponseSpec :=
  s.responses.get? (min s.cursor (s.responses.length - 1))

/-- Modelled from the spec: §3 the cursor advances on each match and sticks
at the last entry once exhausted. -/
def Stub.advance (s : Stub) : Stub :=
  { s with cursor := min (s.cursor + 1) (s.responses.length - 1) }

/-- The sequence of cursor-selected entries consumed by `n` consecutive
matches on a Stub (each match reads the current entry then advances). -/
def Stub.consumeN : Stub → Nat → List (Option ResponseSpec)
  | _, 0 => []
  | s, n + 1 => s.currentResponse :: Stub.consumeN s.advance n

/-- Modelled from the spec: §5 the per-Stub guard makes each request's
cursor-advance-and-read one atomic unit, so a concurrent execution of `n`
requests against one Stub is some serialization of `n` atomic consumes;
as each request is a single atomic step, every interleaving produces the
observation list `consumeN`. -/
def Stub.concurrentRun (s : Stub) (n : Nat) : List (Option ResponseSpec) :=
  s.consumeN n

/-- Modelled from the spec: §4.3 a Stub matches iff every predicate in it
matches the Request (an empty predicate list matches everything). -/
def Stub.matches (s : Stub) (r : Request) : Bool :=
  s.predicates.all (fun p => p.eval r)

/-- Modelled from the spec: §4.4 the concrete Response produced by the
missing Response Resolver: a payload, an error payload, or (for protocols
with no error-response concept) a connection reset. -/
inductive Response where
  | ok (body : String)
  | failed (e : EngineError)
  | reset
deriving DecidableEq, Repr

/-- Modelled from the spec: outcome of the single synchronous forwarding
call a proxy entry makes to its origin. -/
inductive ProxyOutcome where
  | ok (body : String)
  | unreachable
deriving DecidableEq, Repr

/-- Modelled from the spec: §7 distinguishes protocols with an
error-response concept from those without (raw TCP has none, so a proxy
failure there surfaces as a connection reset). -/
def Protocol.hasErrorResponses : Protocol → Bool
  | .http => true
  | .tcp => false
  | .smtp => true

/-- Modelled from the spec: §7 `ProxyUnreachable` is translated into a
best-effort error Response, or a connection reset for protocols with no
error-response concept. -/
def proxyFailureResponse (p : Protocol) : Response :=
  if p.hasErrorResponses then Response.failed EngineError.ProxyUnreachable
  else Response.reset

/-- Modelled from the spec: §4.3 the protocol-specific default Response
returned when no stub matches (e.g. empty 200 for HTTP-like). -/
def defaultResponse : Protocol → Response
  | .http => Response.ok ""
  | .tcp => Response.ok ""
  | .smtp => Response.ok ""

/-- Modelled from the spec: §3 ProxyMode policy applied to the Stub's stored
responses after a successful forwarding call: `proxyOnce` converts the
consumed proxy entry into the recorded `is`, `proxyAlways` appends the new
origin response as a newly recorded `is` entry, `proxyTransparent` never
records. -/
def applyProxyRecording (mode : ProxyMode) (body : String) (s : Stub) : List ResponseSpec :=
  match mode with
  | .proxyOnce => s.responses.set (min s.cursor (s.responses.length - 1)) (ResponseSpec.is body)
  | .proxyAlways => s.responses ++ [ResponseSpec.is body]
  | .proxyTransparent => s.responses

/-- Modelled from the spec: §4.4 `resolve` consumes the Stub's current
cursor entry per the sequential/wrap policy.  `is` returns the literal
payload; `proxy` performs the single synchronous forwarding call (attempt 0
of the origin oracle — the engine never retries) and applies the ProxyMode
recording policy on success, or surfaces `ProxyUnreachable` on failure;
`inject` is an opaque extension point. -/
def Stub.resolve (proto : Protocol) (origin : Nat → ProxyOutcome) (s : Stub) :
    Response × Stub :=
  match s.currentResponse with
  | none => (defaultResponse proto, s)
  | some (.is body) => (Response.ok body, s.advance)
  | some (.inject src) => (Response.ok src, s.advance)
  | some (.proxy _ mode) =>
    match origin 0 with
    | .ok body => (Response.ok body, { s.advance with responses := applyProxyRecording mode body s })
    | .unreachable => (proxyFailureResponse proto, s.advance)

/-- The responses produced by `n` consecutive resolutions of one Stub. -/
def Stub.resolveN (proto : Protocol) (origin : Nat → ProxyOutcome) :
    Stub → Nat → List Response
  | _, 0 => []
  | s, n + 1 =>
    (s.resolve proto origin).1 :: Stub.resolveN proto origin (s.resolve proto origin).2 n

/-- Modelled from the spec: §3 Imposter owned by the missing Registry. -/
structure Imposter where
  protocol : Protocol
  port : Nat
  host : Option String
  recordRequests : Bool
  stubs : List Stub
deriving DecidableEq, Repr

/-- Modelled from the spec: §4.1 the configuration submitted to `create`,
with the protocol still textual (it may be invalid). -/
structure ImposterConfig where
  protocol : String
  port : Nat
  host : Option String
  recordRequests : Bool
  stubs : List Stub
deriving DecidableEq, Repr

/-- Modelled from the spec: §4.1/§2 whether a connection arriving on local
address `addr` is accepted by a server bound to `bound`: no host means
accept on every local interface, a specific host accepts only connections
to that address.  The rule is shared by every Protocol Adapter variant and
by the management server's own HTTP binding. -/
def acceptsOn (bound : Option String) (addr : String) : Bool :=
  match bound with
  | none => true
  | some h => h == addr

/-- Modelled from the spec: the per-protocol Adapter accept rule — each
variant terminates connections on its bound host:port under `acceptsOn`. -/
def Protocol.accepts (_p : Protocol) (bound : Option String) (addr : String) : Bool :=
  acceptsOn bound addr

/-- Modelled from the spec: §4.1 binding fails fast with a distinguishable
`BindFailure` when the requested host is not locally assignable; binding
with no host always succeeds (all interfaces). -/
def bindHost (localAddrs : List String) (bound : Option String) : Except EngineError Unit :=
  match bound with
  | none => Except.ok ()
  | some h => if h ∈ localAddrs then Except.ok () else Except.error EngineError.BindFailure

/-- Modelled from the spec: §4.1 the Imposter Registry, owning the live
imposters keyed by port. -/
structure Registry where
  imposters : List Imposter
deriving DecidableEq, Repr

/-- Ports currently owned by the registry. -/
def Registry.ports (r : Registry) : List Nat :=
  r.imposters.map (fun i => i.port)

/-- Modelled from the spec: the sockets currently bound by the registry's
Protocol Adapters (one per successful `create`). -/
def Registry.boundSockets (r : Registry) : List (Option String × Nat) :=
  r.imposters.map (fun i => (i.host, i.port))

/-- Modelled from the spec: §4.1 `create` fails with `PortInUse` on an
occupied port, `InvalidProtocol` on an unknown protocol, and propagates
`BindFailure` from the adapter; on success it registers the imposter and
starts exactly one Protocol Adapter. -/
def Registry.create (localAddrs : List String) (r : Registry) (cfg : ImposterConfig) :
    Except EngineError Registry :=
  if cfg.port ∈ r.ports then Except.error EngineError.PortInUse
  else
    match parseProtocol cfg.protocol with
    | none => Except.error EngineError.InvalidProtocol
    | some proto =>
      match bindHost localAddrs cfg.host with
      | Except.error e => Except.error e
      | Except.ok _ =>
        Except.ok ⟨r.imposters ++ [⟨proto, cfg.port, cfg.host, cfg.recordRequests, cfg.stubs⟩]⟩

/-- Modelled from the spec: §4.1 `delete` is idempotent, always succeeds
(an unknown port is a no-op success), stops the port's Protocol Adapter and
releases the socket synchronously before returning. -/
def Registry.delete (r : Registry) (p : Nat) : Registry :=
  ⟨r.imposters.filter (fun i => i.port ≠ p)⟩

/-- Modelled from the spec: §4.1 `get` fails with `NotFound` on an unknown
port (unlike `delete`, which is exempt). -/
def Registry.get (r : Registry) (p : Nat) : Except EngineError Imposter :=
  match r.imposters.find? (fun i => i.port == p) with
  | some i => Except.ok i
  | none => Except.error EngineError.NotFound

/-- Modelled from the spec: §3 Snapshot Document: the ordered imposters with
their stub state. -/
structure Snapshot where
  imposters : List Imposter
deriving DecidableEq, Repr

/-- Modelled from the spec: §4.5 during `save`, a Stub whose responses still
contain live `proxy` entries is resolved into its already-recorded `is`
entries only (no new network call); the cursor starts fresh so replay can
reproduce the full observed sequence. -/
def Stub.replayable (s : Stub) : Stub :=
  if s.responses.any ResponseSpec.isProxyEntry then
    ⟨s.predicates, s.responses.filter ResponseSpec.isIsEntry, 0⟩
  else
    ⟨s.predicates, s.responses, 0⟩

/-- Modelled from the spec: the replayable form of an imposter. -/
def Imposter.replayable (i : Imposter) : Imposter :=
  { i with stubs := i.stubs.map Stub.replayable }

/-- Modelled from the spec: §4.5 `save` walks the Registry and emits the
Snapshot Document with every stub in replayable form. -/
def Registry.save (r : Registry) : Snapshot :=
  ⟨r.imposters.map Imposter.replayable⟩

/-- Modelled from the spec: §4.1 `replaceAll` atomically swaps the
Registry's contents for the snapshot's imposters. -/
def Registry.replaceAll (_r : Registry) (doc : Snapshot) : Registry :=
  ⟨doc.imposters⟩

/-- Modelled from the spec: §4.5/§7 `restore` validates the document (ports
are the identity and must be unique, §3) and on success atomically replaces
the Registry's contents; a document failing validation is rejected with
`MalformedSnapshot`. -/
def Registry.restore (r : Registry) (doc : Snapshot) : Except EngineError Registry :=
  if (doc.imposters.map (fun i => i.port)).Nodup then Except.ok (r.replaceAll doc)
  else Except.error EngineError.MalformedSnapshot

/-- Modelled from the spec: §7 a failing operation aborts only itself and
leaves the Registry's prior state untouched; `applyCreate` is the
operational form of `create` making that contract explicit. -/
def Registry.applyCreate (localAddrs : List String) (r : Registry) (cfg : ImposterConfig) :
    Registry × Option EngineError :=
  match r.create localAddrs cfg with
  | Except.ok r' => (r', none)
  | Except.error e => (r, some e)

/-- Modelled from the spec: §7 operational form of `restore`; a failure
leaves the Registry's prior state untouched. -/
def Registry.applyRestore (r : Registry) (doc : Snapshot) :
    Registry × Option EngineError :=
  match r.restore doc with
  | Except.ok r' => (r', none)
  | Except.error e => (r, some e)

/-- The recorded (`is`) response sequence of a Stub. -/
def Stub.recordedResponses (s : Stub) : List ResponseSpec :=
  s.responses.filter ResponseSpec.isIsEntry

/-- The observable state of an imposter: its identity/configuration and, per
stub in order, the predicates and the recorded response sequence. -/
def Imposter.observableState (i : Imposter) :
    (Protocol × Nat × Option String × Bool) × List (List Predicate × List ResponseSpec) :=
  ((i.protocol, i.port, i.host, i.recordRequests),
   i.stubs.map (fun s => (s.predicates, s.recordedResponses)))

/-- The observable state of the whole registry, in imposter order. -/
def Registry.observableState (r : Registry) :
    List ((Protocol × Nat × Option String × Bool) × List (List Predicate × List ResponseSpec)) :=
  r.imposters.map Imposter.observableState

/-- True when some stub of the registry still holds a live proxy entry. -/
def Registry.hasLiveProxy (r : Registry) : Bool :=
  r.imposters.any (fun i => i.stubs.any (fun s => s.responses.any ResponseSpec.isProxyEntry))

/-- Modelled from the spec: §4.3 iterate the stubs in declared order and
split at the first full match, keeping the stubs before and after it. -/
def firstMatchSplit : List Stub → Request → Option (List Stub × Stub × List Stub)
  | [], _ => none
  | s :: rest, req =>
    if s.matches req then some ([], s, rest)
    else
      match firstMatchSplit rest req with
      | some (pre, t, post) => some (s :: pre, t, post)
      | none => none

/-- Modelled from the spec: §2 control flow for one inbound request: the
matching engine picks the first matching stub, the resolver produces the
Response (possibly mutating the winning stub), and a miss returns the
protocol-specific default Response with no stub state mutated. -/
def Imposter.handleRequest (origin : Nat → ProxyOutcome) (i : Imposter) (req : Request) :
    Response × Imposter :=
  match firstMatchSplit i.stubs req with
  | none => (defaultResponse i.protocol, i)
  | some (pre, s, post) =>
    ((s.resolve i.protocol origin).1,
     { i with stubs := pre ++ (s.resolve i.protocol origin).2 :: post })

/-! ### Cursor-sequence lemmas -/

/-- Consuming from cursor `c + 1` over `a :: rs` behaves like consuming from
cursor `c` over `rs`, provided `rs` is nonempty. -/
theorem consumeN_cons (ps : List Predicate) (a : ResponseSpec) (rs : List ResponseSpec)
    (hne : rs ≠ []) :
    ∀ (n c : Nat), Stub.consumeN ⟨ps, a :: rs, c + 1⟩ n = Stub.consumeN ⟨ps, rs, c⟩ n := by
  intro n
  induction n with
  | zero => intro c; rfl
  | succ n ih =>
    intro c
    have hpos : 0 < rs.length := List.length_pos.mpr hne
    have hlen : rs.length - 1 + 1 = rs.length := Nat.succ_pred_eq_of_pos hpos
    have hcur : Stub.currentResponse ⟨ps, a :: rs, c + 1⟩ =
        Stub.currentResponse ⟨ps, rs, c⟩ := by
      simp only [Stub.currentResponse, List.length_cons, Nat.add_sub_cancel]
      rw [← hlen, Nat.succ_min_succ, hlen]
      simp [List.get?_cons_succ]
    have hadv : Stub.advance ⟨ps, a :: rs, c + 1⟩ =
        ⟨ps, a :: rs, min (c + 1) (rs.length - 1) + 1⟩ := by
      simp only [Stub.advance, List.length_cons, Nat.add_sub_cancel]
      rw [← hlen, Nat.succ_min_succ, hlen]
    simp only [Stub.consumeN, hcur, hadv, ih (min (c + 1) (rs.length - 1))]
    rfl

/-- Once the cursor sits on the last entry it never moves again: every
further match observes the last entry. -/
theorem consumeN_stuck (ps : List Predicate) (rs : List ResponseSpec) :
    ∀ n : Nat, Stub.consumeN ⟨ps, rs, rs.length - 1⟩ n =
      List.replicate n (rs.get? (rs.length - 1)) := by
  intro n
  induction n with
  | zero => rfl
  | succ n ih =>
    have hcur : Stub.currentResponse ⟨ps, rs, rs.length - 1⟩ = rs.get? (rs.length - 1) := by
      simp [Stub.currentResponse]
    have hadv : Stub.advance ⟨ps, rs, rs.length - 1⟩ = ⟨ps, rs, rs.length - 1⟩ := by
      simp only [Stub.advance]
      rw [Nat.min_eq_right (Nat.le_succ _)]
    simp only [Stub.consumeN, hcur, hadv, ih, List.replicate]

/-- The full run: from a fresh cursor, `N + n` matches observe the `N`
responses in order and then the last entry `n` more times. -/
theorem consumeN_full (ps : List Predicate) :
    ∀ (rs : List ResponseSpec) (n : Nat),
      Stub.consumeN ⟨ps, rs, 0⟩ (rs.length + n) =
        rs.map some ++ List.replicate n (rs.get? (rs.length - 1)) := by
  intro rs
  induction rs with
  | nil =>
    intro n
    simpa using consumeN_stuck ps [] n
  | cons a rest ih =>
    intro n
    cases rest with
    | nil =>
      have hstep : Stub.consumeN ⟨ps, [a], 0⟩ (1 + n) =
          Stub.currentResponse ⟨ps, [a], 0⟩ ::
            Stub.consumeN (Stub.advance ⟨ps, [a], 0⟩) n := by
        rw [Nat.add_comm]
        rfl
      have hadv : Stub.advance ⟨ps, [a], 0⟩ = ⟨ps, [a], 0⟩ := by
        simp [Stub.advance]
      have hstuck := consumeN_stuck ps [a] n
      simp only [List.length_singleton] at hstuck
      simp [hstep, hadv, Stub.currentResponse, hstuck]
    | cons b rest2 =>
      have hne : b :: rest2 ≠ [] := by simp
      have hlen2 : (a :: b :: rest2).length + n = ((b :: rest2).length + n) + 1 := by
        simp [List.length_cons]
        omega
      have hcur : Stub.currentResponse ⟨ps, a :: b :: rest2, 0⟩ = some a := by
        simp [Stub.currentResponse, Nat.zero_min]
      have hadv : Stub.advance ⟨ps, a :: b :: rest2, 0⟩ = ⟨ps, a :: b :: rest2, 1⟩ := by
        simp only [Stub.advance, List.length_cons, Nat.add_sub_cancel]
        congr 1
        omega
      have htail := consumeN_cons ps a (b :: rest2) hne ((b :: rest2).length + n) 0
      have hgoal : Stub.consumeN ⟨ps, a :: b :: rest2, 0⟩ (((b :: rest2).length + n) + 1) =
          some a :: Stub.consumeN ⟨ps, b :: rest2, 0⟩ ((b :: rest2).length + n) := by
        simp only [Stub.consumeN, hcur, hadv]
        exact congrArg _ htail
      rw [hlen2, hgoal, ih n]
      simp [List.length_cons, Nat.add_sub_cancel]

/-- Claim C3: for every Stub with `N ≥ 1` responses, consecutive matches
observe `responses[0], ..., responses[N-1]` in order and then stick at
`responses[N-1]` forever (so `N + 1` matches end with the last entry twice);
and along the full resolver a two-response Stub of literal payloads returns
`response[0]`, `response[1]`, and then `response[1]` on every further
match. -/
theorem cursor_sequence_sticks_at_last :
    (∀ (ps : List Predicate) (rs : List ResponseSpec) (n : Nat), rs ≠ [] →
      Stub.consumeN ⟨ps, rs, 0⟩ (rs.length + n) =
        rs.map some ++ List.replicate n (rs.get? (rs.length - 1)))
    ∧ (∀ (ps : List Predicate) (b0 b1 : String) (o : Nat → ProxyOutcome),
      Stub.resolveN Protocol.http o ⟨ps, [ResponseSpec.is b0, ResponseSpec.is b1], 0⟩ 3 =
        [Response.ok b0, Response.ok b1, Response.ok b1]) := by
  constructor
  · intro ps rs n _
    exact consumeN_full ps rs n
  · intro ps b0 b1 o
    rfl

/-- Concrete run of the C3 theorem: a fresh two-response stub consumed three
times observes the first entry, the second entry, then the second entry
again. -/
theorem cursor_sequence_sticks_at_last_witness :
    ([ResponseSpec.is "a", ResponseSpec.is "b"] ≠ ([] : List ResponseSpec))
    ∧ Stub.consumeN ⟨[], [ResponseSpec.is "a", ResponseSpec.is "b"], 0⟩
        ([ResponseSpec.is "a", ResponseSpec.is "b"].length + 1) =
      [ResponseSpec.is "a", ResponseSpec.is "b"].map some ++
        List.replicate 1
          ([ResponseSpec.is "a", ResponseSpec.is "b"].get?
            ([ResponseSpec.is "a", ResponseSpec.is "b"].length - 1)) :=
  ⟨by decide,
   cursor_sequence_sticks_at_last.1 [] [ResponseSpec.is "a", ResponseSpec.is "b"] 1 (by decide)⟩

/-! ### Stub-matching lemmas -/

/-- The split returned by `firstMatchSplit` really is the first full match:
everything before fails, the winner matches. -/
theorem firstMatchSplit_of_parts (req : Request) :
    ∀ (pre : List Stub) (s : Stub) (post : List Stub),
      (∀ t ∈ pre, t.matches req = false) → s.matches req = true →
      firstMatchSplit (pre ++ s :: post) req = some (pre, s, post) := by
  intro pre
  induction pre with
  | nil =>
    intro s post _ hs
    simp [firstMatchSplit, hs]
  | cons t pre ih =>
    intro s post hpre hs
    have ht : t.matches req = false := hpre t (by simp)
    simp [firstMatchSplit, ht, ih s post (fun u hu => hpre u (by simp [hu])) hs]

/-- When no stub matches, the iteration finds nothing. -/
theorem firstMatchSplit_none (req : Request) :
    ∀ l : List Stub, (∀ t ∈ l, t.matches req = false) → firstMatchSplit l req = none := by
  intro l
  induction l with
  | nil => intro _; rfl
  | cons t l ih =>
    intro h
    simp [firstMatchSplit, h t (by simp), ih (fun u hu => h u (by simp [hu]))]

/-- A successful split decomposes the stub list. -/
theorem firstMatchSplit_decomposes (req : Request) :
    ∀ (l pre : List Stub) (s : Stub) (post : List Stub),
      firstMatchSplit l req = some (pre, s, post) → l = pre ++ s :: post := by
  intro l
  induction l with
  | nil =>
    intro pre s post h
    simp [firstMatchSplit] at h
  | cons t l ih =>
    intro pre s post h
    by_cases ht : t.matches req
    · simp [firstMatchSplit, ht] at h
      obtain ⟨h1, h2, h3⟩ := h
      subst h1; subst h2; subst h3
      rfl
    · simp only [firstMatchSplit, ht, if_neg, Bool.false_eq_true, if_false] at h
      cases hfm : firstMatchSplit l req with
      | none => rw [hfm] at h; cases h
      | some trip =>
        obtain ⟨p, u, q⟩ := trip
        rw [hfm] at h
        simp at h
        obtain ⟨h1, h2, h3⟩ := h
        subst h1; subst h2; subst h3
        simpa using congrArg (List.cons t) (ih p u q hfm)

/-- Claim C4: stub matching iterates the stubs in declared order and selects
the first stub all of whose predicates match; a stub with an empty predicate
list matches every request, so a `[specific, fallback-empty]` list selects
the specific stub when it matches and the fallback otherwise; and when no
stub matches, the protocol-specific default Response is returned with no
stub state mutated. -/
theorem first_match_wins_empty_matches_all :
    (∀ (req : Request) (pre : List Stub) (s : Stub) (post : List Stub),
      (∀ t ∈ pre, t.matches req = false) → s.matches req = true →
      firstMatchSplit (pre ++ s :: post) req = some (pre, s, post))
    ∧ (∀ (s : Stub) (req : Request), s.predicates = [] → s.matches req = true)
    ∧ (∀ (sp fb : Stub) (req : Request), fb.predicates = [] →
      firstMatchSplit [sp, fb] req =
        if sp.matches req then some ([], sp, [fb]) else some ([sp], fb, []))
    ∧ (∀ (i : Imposter) (req : Request) (o : Nat → ProxyOutcome),
      (∀ t ∈ i.stubs, t.matches req = false) →
      i.handleRequest o req = (defaultResponse i.protocol, i)) := by
  refine ⟨firstMatchSplit_of_parts, ?_, ?_, ?_⟩
  · intro s req h
    simp [Stub.matches, h]
  · intro sp fb req hfb
    have hfbm : fb.matches req = true := by simp [Stub.matches, hfb]
    by_cases hsp : sp.matches req
    · simp [firstMatchSplit, hsp]
    · simp [firstMatchSplit, hsp, hfbm]
  · intro i req o h
    simp [Imposter.handleRequest, firstMatchSplit_none req i.stubs h]

/-- Concrete run of the C4 theorem: an imposter whose sole stub requires
path `/x` answers a request for `/` with the default Response and is left
unchanged. -/
theorem first_match_wins_empty_matches_all_witness :
    (∀ t ∈ (Imposter.mk Protocol.http 3000 none false
        [⟨[Predicate.equals "path" "/x"], [ResponseSpec.is "hi"], 0⟩]).stubs,
      t.matches ⟨"GET", "/", ""⟩ = false)
    ∧ Imposter.handleRequest (fun _ => ProxyOutcome.unreachable)
        (Imposter.mk Protocol.http 3000 none false
          [⟨[Predicate.equals "path" "/x"], [ResponseSpec.is "hi"], 0⟩])
        ⟨"GET", "/", ""⟩ =
      (defaultResponse
        (Imposter.mk Protocol.http 3000 none false
          [⟨[Predicate.equals "path" "/x"], [ResponseSpec.is "hi"], 0⟩]).protocol,
       Imposter.mk Protocol.http 3000 none false
        [⟨[Predicate.equals "path" "/x"], [ResponseSpec.is "hi"], 0⟩]) :=
  ⟨by decide,
   first_match_wins_empty_matches_all.2.2.2
    (Imposter.mk Protocol.http 3000 none false
      [⟨[Predicate.equals "path" "/x"], [ResponseSpec.is "hi"], 0⟩])
    ⟨"GET", "/", ""⟩ (fun _ => ProxyOutcome.unreachable) (by decide)⟩

/-! ### Host-binding lemmas -/

/-- Claim C2: a server bound to a specific host accepts connections only on
that address (any other local address is refused) for every protocol
variant; binding with no host accepts on every interface; and binding to an
address that is not locally assignable fails fast with the distinguishable
`BindFailure` error, both at the adapter and through `create`. -/
theorem bound_host_restricts_connections :
    (∀ (p : Protocol) (h a : String), a ≠ h → p.accepts (some h) a = false)
    ∧ (∀ (p : Protocol) (a : String), p.accepts none a = true)
    ∧ (∀ (localAddrs : List String) (h : String), h ∉ localAddrs →
      bindHost localAddrs (some h) = Except.error EngineError.BindFailure)
    ∧ (∀ (localAddrs : List String) (r : Registry) (cfg : ImposterConfig) (h : String)
        (proto : Protocol),
      cfg.host = some h → h ∉ localAddrs → cfg.port ∉ r.ports →
      parseProtocol cfg.protocol = some proto →
      r.create localAddrs cfg = Except.error EngineError.BindFailure) := by
  refine ⟨?_, ?_, ?_, ?_⟩
  · intro p h a hne
    simp [Protocol.accepts, acceptsOn]
    exact fun heq => (hne heq.symm).elim
  · intro p a
    rfl
  · intro localAddrs h hmem
    simp [bindHost, hmem]
  · intro localAddrs r cfg h proto hhost hmem hport hproto
    simp [Registry.create, hport, hproto, hhost, bindHost, hmem]

/-- Concrete run of the C2 theorem: creating an http imposter bound to an
address that is not locally assignable fails with `BindFailure`. -/
theorem bound_host_restricts_connections_witness :
    ((ImposterConfig.mk "http" 3000 (some "192.168.9.9") false []).host = some "192.168.9.9")
    ∧ ("192.168.9.9" ∉ ["10.0.0.5"])
    ∧ ((ImposterConfig.mk "http" 3000 (some "192.168.9.9") false []).port ∉
        (Registry.mk []).ports)
    ∧ (parseProtocol (ImposterConfig.mk "http" 3000 (some "192.168.9.9") false []).protocol =
        some Protocol.http)
    ∧ Registry.create ["10.0.0.5"] (Registry.mk [])
        (ImposterConfig.mk "http" 3000 (some "192.168.9.9") false []) =
      Except.error EngineError.BindFailure :=
  ⟨by decide, by decide, by decide, by decide,
   bound_host_restricts_connections.2.2.2 ["10.0.0.5"] (Registry.mk [])
    (ImposterConfig.mk "http" 3000 (some "192.168.9.9") false []) "192.168.9.9" Protocol.http
    (by decide) (by decide) (by decide) (by decide)⟩

/-! ### Registry error-handling lemmas -/

/-- Claim C5: creating an imposter on an occupied port fails with
`PortInUse` and leaves the registry — including the existing imposter on
that port — untouched; more generally, every `create` or `restore` that
fails (with `PortInUse`, `BindFailure`, `InvalidProtocol`, or
`MalformedSnapshot`) aborts only the requested operation and leaves the
registry's prior state unchanged, registering no partial imposter. -/
theorem failed_operations_leave_registry_untouched :
    (∀ (localAddrs : List String) (r : Registry) (cfg : ImposterConfig),
      cfg.port ∈ r.ports →
      r.applyCreate localAddrs cfg = (r, some EngineError.PortInUse))
    ∧ (∀ (localAddrs : List String) (r : Registry) (cfg : ImposterConfig) (e : EngineError),
      (r.applyCreate localAddrs cfg).2 = some e → (r.applyCreate localAddrs cfg).1 = r)
    ∧ (∀ (r : Registry) (doc : Snapshot) (e : EngineError),
      (r.applyRestore doc).2 = some e → (r.applyRestore doc).1 = r) := by
  refine ⟨?_, ?_, ?_⟩
  · intro localAddrs r cfg hmem
    simp [Registry.applyCreate, Registry.create, hmem]
  · intro localAddrs r cfg e h
    cases hc : r.create localAddrs cfg with
    | ok r' => rw [Registry.applyCreate, hc] at h; cases h
    | error e' => rw [Registry.applyCreate, hc]
  · intro r doc e h
    cases hc : r.restore doc with
    | ok r' => rw [Registry.applyRestore, hc] at h; cases h
    | error e' => rw [Registry.applyRestore, hc]

/-- Concrete run of the C5 theorem: a second create on port 3000 fails with
`PortInUse` and the registry keeps exactly its prior imposter. -/
theorem failed_operations_leave_registry_untouched_witness :
    ((ImposterConfig.mk "http" 3000 none false []).port ∈
      (Registry.mk [Imposter.mk Protocol.http 3000 none false []]).ports)
    ∧ Registry.applyCreate []
        (Registry.mk [Imposter.mk Protocol.http 3000 none false []])
        (ImposterConfig.mk "http" 3000 none false []) =
      (Registry.mk [Imposter.mk Protocol.http 3000 none false []],
       some EngineError.PortInUse) :=
  ⟨by decide,
   failed_operations_leave_registry_untouched.1 []
    (Registry.mk [Imposter.mk Protocol.http 3000 none false []])
    (ImposterConfig.mk "http" 3000 none false []) (by decide)⟩

/-- Port membership after a delete: exactly the other ports survive. -/
theorem mem_ports_delete (r : Registry) (p q : Nat) :
    q ∈ (r.delete p).ports ↔ q ∈ r.ports ∧ q ≠ p := by
  simp only [Registry.delete, Registry.ports, List.mem_map, List.mem_filter]
  constructor
  · rintro ⟨i, ⟨hi, hip⟩, rfl⟩
    exact ⟨⟨i, hi, rfl⟩, by simpa using hip⟩
  · rintro ⟨⟨i, hi, rfl⟩, hqp⟩
    exact ⟨i, ⟨hi, by simpa using hqp⟩, rfl⟩

/-- Claim C6: `delete` is idempotent and always succeeds — deleting an
unknown port is a no-op success (exempt from the `NotFound` that `get`
returns there) — and deleting a known port releases its socket so the port
is immediately reusable by a subsequent `create`. -/
theorem delete_idempotent_and_releases_port :
    (∀ (r : Registry) (p : Nat), p ∉ r.ports →
      r.delete p = r ∧ r.get p = Except.error EngineError.NotFound)
    ∧ (∀ (r : Registry) (p : Nat), (r.delete p).delete p = r.delete p)
    ∧ (∀ (r : Registry) (p : Nat),
      p ∉ (r.delete p).ports ∧ ∀ sock ∈ (r.delete p).boundSockets, sock.2 ≠ p)
    ∧ (∀ (localAddrs : List String) (r : Registry) (cfg : ImposterConfig) (proto : Protocol),
      parseProtocol cfg.protocol = some proto →
      bindHost localAddrs cfg.host = Except.ok () →
      (r.delete cfg.port).create localAddrs cfg =
        Except.ok ⟨(r.delete cfg.port).imposters ++
          [⟨proto, cfg.port, cfg.host, cfg.recordRequests, cfg.stubs⟩]⟩) := by
  have hnotmem : ∀ (r : Registry) (p : Nat), p ∉ (r.delete p).ports := by
    intro r p hmem
    exact ((mem_ports_delete r p p).mp hmem).2 rfl
  refine ⟨?_, ?_, ?_, ?_⟩
  · intro r p hp
    constructor
    · have hall : ∀ i ∈ r.imposters, i.port ≠ p := by
        simp only [Registry.ports, List.mem_map, not_exists] at hp
        intro i hi hip
        exact hp i ⟨hi, hip⟩
      simp only [Registry.delete]
      rw [List.filter_eq_self.mpr]
      intro i hi
      simpa using hall i hi
    · have hfind : r.imposters.find? (fun i => i.port == p) = none := by
        rw [List.find?_eq_none]
        simp only [Registry.ports, List.mem_map, not_exists] at hp
        intro i hi
        simp only [beq_iff_eq]
        intro hip
        exact hp i ⟨hi, hip⟩
      simp [Registry.get, hfind]
  · intro r p
    simp only [Registry.delete, List.filter_filter]
    congr 1
    apply List.filter_congr
    intro i _
    simp
  · intro r p
    refine ⟨hnotmem r p, ?_⟩
    intro sock hsock
    simp only [Registry.boundSockets, Registry.delete, List.mem_map, List.mem_filter] at hsock
    obtain ⟨i, ⟨_, hip⟩, rfl⟩ := hsock
    simpa using hip
  · intro localAddrs r cfg proto hproto hbind
    have hnp : cfg.port ∉ (r.delete cfg.port).ports := hnotmem r cfg.port
    simp [Registry.create, hnp, hproto, hbind]

/-- Concrete run of the C6 theorem: after deleting port 4000 the same port
is immediately reusable by a fresh create. -/
theorem delete_idempotent_and_releases_port_witness :
    (parseProtocol (ImposterConfig.mk "http" 4000 none false []).protocol = some Protocol.http)
    ∧ (bindHost [] (ImposterConfig.mk "http" 4000 none false []).host = Except.ok ())
    ∧ ((Registry.mk [Imposter.mk Protocol.http 4000 none false []]).delete
        (ImposterConfig.mk "http" 4000 none false []).port).create []
        (ImposterConfig.mk "http" 4000 none false []) =
      Except.ok ⟨((Registry.mk [Imposter.mk Protocol.http 4000 none false []]).delete
          (ImposterConfig.mk "http" 4000 none false []).port).imposters ++
        [⟨Protocol.http, (ImposterConfig.mk "http" 4000 none false []).port,
          (ImposterConfig.mk "http" 4000 none false []).host,
          (ImposterConfig.mk "http" 4000 none false []).recordRequests,
          (ImposterConfig.mk "http" 4000 none false []).stubs⟩]⟩ :=
  ⟨by decide, by rfl,
   delete_idempotent_and_releases_port.2.2.2 []
    (Registry.mk [Imposter.mk Protocol.http 4000 none false []])
    (ImposterConfig.mk "http" 4000 none false []) Protocol.http (by decide) (by rfl)⟩

/-! ### Proxy-failure lemmas -/

/-- Claim C7: a proxy entry whose single synchronous forwarding call fails
yields the `ProxyUnreachable` error payload as the Response (or a connection
reset for a protocol with no error-response concept); the imposter is never
torn down by the failure — it keeps its identity and every stub's stored
responses — and the resolver consults the origin exactly once, so the
failure is reported synchronously with no retry by the engine. -/
theorem proxy_failure_is_nonfatal :
    (∀ (o : Nat → ProxyOutcome) (i : Imposter) (req : Request),
      (i.handleRequest o req).2.port = i.port ∧
        (i.handleRequest o req).2.protocol = i.protocol)
    ∧ (∀ (proto : Protocol) (s : Stub) (o o' : Nat → ProxyOutcome),
      o 0 = o' 0 → s.resolve proto o = s.resolve proto o')
    ∧ (∀ (o : Nat → ProxyOutcome) (i : Imposter) (req : Request)
        (pre : List Stub) (s : Stub) (post : List Stub) (tgt : String) (mode : ProxyMode),
      firstMatchSplit i.stubs req = some (pre, s, post) →
      s.currentResponse = some (ResponseSpec.proxy tgt mode) →
      o 0 = ProxyOutcome.unreachable →
      ((i.handleRequest o req).1 = Response.failed EngineError.ProxyUnreachable ∨
        (i.handleRequest o req).1 = Response.reset) ∧
      (i.handleRequest o req).2.stubs.map (fun t => t.responses) =
        i.stubs.map (fun t => t.responses)) := by
  refine ⟨?_, ?_, ?_⟩
  · intro o i req
    cases hm : firstMatchSplit i.stubs req with
    | none => simp [Imposter.handleRequest, hm]
    | some trip =>
      obtain ⟨pre, s, post⟩ := trip
      simp [Imposter.handleRequest, hm]
  · intro proto s o o' h
    cases hc : s.currentResponse with
    | none => simp [Stub.resolve, hc]
    | some spec =>
      cases spec with
      | is body => simp [Stub.resolve, hc]
      | inject src => simp [Stub.resolve, hc]
      | proxy tgt mode => simp [Stub.resolve, hc, h]
  · intro o i req pre s post tgt mode hm hc ho
    have hres : s.resolve i.protocol o = (proxyFailureResponse i.protocol, s.advance) := by
      simp [Stub.resolve, hc, ho]
    have hdec := firstMatchSplit_decomposes req i.stubs pre s post hm
    constructor
    · simp only [Imposter.handleRequest, hm, hres]
      by_cases hp : i.protocol.hasErrorResponses
      · left; simp [proxyFailureResponse, hp]
      · right; simp [proxyFailureResponse, hp]
    · have hstubs : (i.handleRequest o req).2.stubs = pre ++ s.advance :: post := by
        simp [Imposter.handleRequest, hm, hres]
      rw [hstubs, hdec]
      simp [Stub.advance]

/-- Concrete run of the C7 theorem: an http imposter whose matched stub
holds a live proxy entry answers an unreachable origin with the
`ProxyUnreachable` error payload (or a reset) and keeps all stored
responses. -/
theorem proxy_failure_is_nonfatal_witness :
    (firstMatchSplit (Imposter.mk Protocol.http 5000 none false
        [⟨[], [ResponseSpec.proxy "http://o" ProxyMode.proxyAlways], 0⟩]).stubs
        ⟨"GET", "/", ""⟩ =
      some ([], ⟨[], [ResponseSpec.proxy "http://o" ProxyMode.proxyAlways], 0⟩, []))
    ∧ (Stub.currentResponse ⟨[], [ResponseSpec.proxy "http://o" ProxyMode.proxyAlways], 0⟩ =
      some (ResponseSpec.proxy "http://o" ProxyMode.proxyAlways))
    ∧ ((fun _ : Nat => ProxyOutcome.unreachable) 0 = ProxyOutcome.unreachable)
    ∧ (((Imposter.mk Protocol.http 5000 none false
          [⟨[], [ResponseSpec.proxy "http://o" ProxyMode.proxyAlways], 0⟩]).handleRequest
          (fun _ => ProxyOutcome.unreachable) ⟨"GET", "/", ""⟩).1 =
        Response.failed EngineError.ProxyUnreachable ∨
      ((Imposter.mk Protocol.http 5000 none false
          [⟨[], [ResponseSpec.proxy "http://o" ProxyMode.proxyAlways], 0⟩]).handleRequest
          (fun _ => ProxyOutcome.unreachable) ⟨"GET", "/", ""⟩).1 = Response.reset)
    ∧ ((Imposter.mk Protocol.http 5000 none false
          [⟨[], [ResponseSpec.proxy "http://o" ProxyMode.proxyAlways], 0⟩]).handleRequest
          (fun _ => ProxyOutcome.unreachable) ⟨"GET", "/", ""⟩).2.stubs.map
          (fun t => t.responses) =
        (Imposter.mk Protocol.http 5000 none false
          [⟨[], [ResponseSpec.proxy "http://o" ProxyMode.proxyAlways], 0⟩]).stubs.map
          (fun t => t.responses) :=
  ⟨by decide, by decide, by rfl,
   (proxy_failure_is_nonfatal.2.2 (fun _ => ProxyOutcome.unreachable)
     (Imposter.mk Protocol.http 5000 none false
       [⟨[], [ResponseSpec.proxy "http://o" ProxyMode.proxyAlways], 0⟩])
     ⟨"GET", "/", ""⟩ [] ⟨[], [ResponseSpec.proxy "http://o" ProxyMode.proxyAlways], 0⟩ []
     "http://o" ProxyMode.proxyAlways (by decide) (by decide) (by rfl)).1,
   (proxy_failure_is_nonfatal.2.2 (fun _ => ProxyOutcome.unreachable)
     (Imposter.mk Protocol.http 5000 none false
       [⟨[], [ResponseSpec.proxy "http://o" ProxyMode.proxyAlways], 0⟩])
     ⟨"GET", "/", ""⟩ [] ⟨[], [ResponseSpec.proxy "http://o" ProxyMode.proxyAlways], 0⟩ []
     "http://o" ProxyMode.proxyAlways (by decide) (by decide) (by rfl)).2⟩

/-! ### Save/restore round-trip lemmas -/

/-- Pointwise-equal functions map lists identically. -/
theorem map_congr_mem {α β : Type} (l : List α) (f g : α → β)
    (h : ∀ a ∈ l, f a = g a) : l.map f = l.map g := by
  induction l with
  | nil => rfl
  | cons a l ih => simp [h a (by simp), ih (fun b hb => h b (by simp [hb]))]

/-- A recorded sequence is unchanged by filtering for recorded entries
again. -/
theorem filter_isIs_idem (rs : List ResponseSpec) :
    (rs.filter ResponseSpec.isIsEntry).filter ResponseSpec.isIsEntry =
      rs.filter ResponseSpec.isIsEntry :=
  List.filter_eq_self.mpr (fun _a ha => (List.mem_filter.mp ha).2)

/-- No live proxy entry survives the recording filter. -/
theorem no_proxy_in_recorded (rs : List ResponseSpec) :
    (rs.filter ResponseSpec.isIsEntry).any ResponseSpec.isProxyEntry = false := by
  rw [List.any_eq_false]
  intro a ha
  have h1 : ResponseSpec.isIsEntry a = true := (List.mem_filter.mp ha).2
  cases a <;> simp_all [ResponseSpec.isIsEntry, ResponseSpec.isProxyEntry]

/-- `replayable` keeps the stub's predicates. -/
theorem Stub.replayable_predicates (s : Stub) : s.replayable.predicates = s.predicates := by
  unfold Stub.replayable
  by_cases h : s.responses.any ResponseSpec.isProxyEntry <;> simp [h]

/-- `replayable` resets the cursor for a fresh replay. -/
theorem Stub.replayable_cursor (s : Stub) : s.replayable.cursor = 0 := by
  unfold Stub.replayable
  by_cases h : s.responses.any ResponseSpec.isProxyEntry <;> simp [h]

/-- `replayable` keeps exactly the recorded response sequence. -/
theorem Stub.replayable_recorded (s : Stub) :
    s.replayable.recordedResponses = s.recordedResponses := by
  unfold Stub.replayable Stub.recordedResponses
  by_cases h : s.responses.any ResponseSpec.isProxyEntry <;> simp [h, filter_isIs_idem]

/-- After `replayable`, no live proxy entry remains in the stub. -/
theorem Stub.replayable_no_proxy (s : Stub) :
    s.replayable.responses.any ResponseSpec.isProxyEntry = false := by
  unfold Stub.replayable
  by_cases h : s.responses.any ResponseSpec.isProxyEntry
  · rw [if_pos h]
    exact no_proxy_in_recorded s.responses
  · rw [if_neg h]
    exact Bool.eq_false_iff.mpr h

/-- A proxy-free stub with a fresh cursor is already replayable. -/
theorem Stub.replayable_eq_self (s : Stub)
    (h1 : s.responses.any ResponseSpec.isProxyEntry = false) (h2 : s.cursor = 0) :
    s.replayable = s := by
  unfold Stub.replayable
  rw [h1]
  cases s
  simp_all

/-- `replayable` on stubs is idempotent. -/
theorem Stub.replayable_idempotent (s : Stub) : s.replayable.replayable = s.replayable :=
  Stub.replayable_eq_self _ (Stub.replayable_no_proxy s) (Stub.replayable_cursor s)

/-- `replayable` preserves an imposter's observable state: identity,
configuration, stub order, predicates, and recorded response sequences. -/
theorem Imposter.replayable_observable (i : Imposter) :
    i.replayable.observableState = i.observableState := by
  unfold Imposter.replayable Imposter.observableState
  simp only [List.map_map]
  refine congrArg (fun l => ((i.protocol, i.port, i.host, i.recordRequests), l)) ?_
  apply map_congr_mem
  intro s _
  simp [Stub.replayable_predicates, Stub.replayable_recorded]

/-- `replayable` on imposters is idempotent. -/
theorem Imposter.replayable_idem (i : Imposter) : i.replayable.replayable = i.replayable := by
  unfold Imposter.replayable
  simp only [List.map_map]
  congr 1
  exact map_congr_mem _ _ _ (fun s _ => Stub.replayable_idempotent s)

/-- `save` followed by `replaceAll` preserves the registry's ports. -/
theorem Registry.save_ports (r : Registry) : (r.replaceAll r.save).ports = r.ports := by
  unfold Registry.replaceAll Registry.save Registry.ports
  simp only [List.map_map]
  exact map_congr_mem _ _ _ (fun i _ => rfl)

/-- The restored registry holds no live proxy entry. -/
theorem Registry.save_no_live_proxy (r : Registry) :
    (r.replaceAll r.save).hasLiveProxy = false := by
  unfold Registry.replaceAll Registry.save Registry.hasLiveProxy
  rw [List.any_eq_false]
  intro i hi
  obtain ⟨j, _, rfl⟩ := List.mem_map.mp hi
  intro hx
  rw [List.any_eq_true] at hx
  obtain ⟨s, hs, hsp⟩ := hx
  simp only [Imposter.replayable] at hs
  obtain ⟨t, _, rfl⟩ := List.mem_map.mp hs
  rw [Stub.replayable_no_proxy t] at hsp
  cases hsp

/-- Saving the restored registry reproduces the same snapshot. -/
theorem Registry.save_idem (r : Registry) : (r.replaceAll r.save).save = r.save := by
  unfold Registry.replaceAll Registry.save
  simp only [List.map_map]
  congr 1
  exact map_congr_mem _ _ _ (fun i _ => Imposter.replayable_idem i)

/-- Claim C1: for every registry whose ports are unique, `restore (save ())`
succeeds, yields a registry with the same imposters, stub order, and
recorded response sequences, with no live proxy entry left anywhere, and the
result is a true fixed point of the save/restore round trip; in particular a
`proxyAlways` stub through which exactly one request was forwarded to an
origin answering "ORIGIN" saves to a stub whose responses are exactly one
`is` entry with body "ORIGIN". -/
theorem restore_save_roundtrip :
    (∀ r : Registry, r.ports.Nodup →
      r.restore r.save = Except.ok (r.replaceAll r.save)
      ∧ (r.replaceAll r.save).observableState = r.observableState
      ∧ (r.replaceAll r.save).hasLiveProxy = false
      ∧ (r.replaceAll r.save).restore (r.replaceAll r.save).save =
          Except.ok (r.replaceAll r.save))
    ∧ (Registry.save ⟨[(Imposter.handleRequest (fun _ => ProxyOutcome.ok "ORIGIN")
        (Imposter.mk Protocol.http 5001 none false
          [⟨[], [ResponseSpec.proxy "http://origin:5000" ProxyMode.proxyAlways], 0⟩])
        ⟨"GET", "/", ""⟩).2]⟩).imposters.map (fun i => i.stubs.map (fun s => s.responses)) =
      [[[ResponseSpec.is "ORIGIN"]]] := by
  constructor
  · intro r hnd
    have hports : (r.replaceAll r.save).ports = r.ports := Registry.save_ports r
    have hnd' : ((r.save).imposters.map (fun i => i.port)).Nodup := by
      have heq : (r.save).imposters.map (fun i => i.port) = r.ports := hports
      rw [heq]
      exact hnd
    refine ⟨?_, ?_, Registry.save_no_live_proxy r, ?_⟩
    · simp [Registry.restore, hnd']
    · unfold Registry.replaceAll Registry.save Registry.observableState
      simp only [List.map_map]
      exact map_congr_mem _ _ _ (fun i _ => Imposter.replayable_observable i)
    · have hsi := Registry.save_idem r
      rw [Registry.restore, hsi]
      simp [hnd']
      rfl
  · decide

/-- Concrete one-imposter registry (one stub, one recorded response) used to
exercise the round-trip theorem. -/
def sampleRegistry : Registry :=
  ⟨[Imposter.mk Protocol.http 3000 none false [⟨[], [ResponseSpec.is "OK"], 0⟩]]⟩

/-- Concrete run of the C1 theorem: a one-imposter registry with a recorded
stub round-trips through save and restore unchanged. -/
theorem restore_save_roundtrip_witness :
    sampleRegistry.ports.Nodup
    ∧ (sampleRegistry.restore sampleRegistry.save =
        Except.ok (sampleRegistry.replaceAll sampleRegistry.save)
      ∧ (sampleRegistry.replaceAll sampleRegistry.save).observableState =
          sampleRegistry.observableState
      ∧ (sampleRegistry.replaceAll sampleRegistry.save).hasLiveProxy = false
      ∧ (sampleRegistry.replaceAll sampleRegistry.save).restore
          (sampleRegistry.replaceAll sampleRegistry.save).save =
        Except.ok (sampleRegistry.replaceAll sampleRegistry.save)) :=
  ⟨by decide, restore_save_roundtrip.1 sampleRegistry (by decide)⟩

/-! ### Concurrency: serialized atomic cursor operations -/

/-- Claim C8 counterexample: 50 requests at a fresh two-entry sequential
Stub — under the spec's own cursor policy, which sticks at the last entry
once exhausted — observe `response[0]` exactly once and `response[1]` 49
times, not 25 occurrences of each as the claim states. -/
theorem concurrent_fifty_not_twentyfive :
    (Stub.concurrentRun ⟨[], [ResponseSpec.is "A", ResponseSpec.is "B"], 0⟩ 50).count
        (some (ResponseSpec.is "A")) = 1
    ∧ (Stub.concurrentRun ⟨[], [ResponseSpec.is "A", ResponseSpec.is "B"], 0⟩ 50).count
        (some (ResponseSpec.is "B")) = 49
    ∧ ¬ ((Stub.concurrentRun ⟨[], [ResponseSpec.is "A", ResponseSpec.is "B"], 0⟩ 50).count
        (some (ResponseSpec.is "A")) = 25) := by
  decide

/-- Claim C8 (amended): with cursor-advance-and-read atomic per request, two
concurrent requests against a two-response sequential Stub observe
responses 0 and 1 exactly once each (never both observing 0); 50
simultaneous requests at a two-entry sequential Stub observe `response[0]`
exactly once and `response[1]` exactly 49 times, with no duplication and no
loss, because the cursor sticks at the last entry once exhausted; and at a
single-response Stub all 50 requests observe that same response. -/
theorem concurrent_atomic_cursor_counts :
    (∀ (ps : List Predicate) (r0 r1 : ResponseSpec), r0 ≠ r1 →
      (Stub.concurrentRun ⟨ps, [r0, r1], 0⟩ 2).count (some r0) = 1
      ∧ (Stub.concurrentRun ⟨ps, [r0, r1], 0⟩ 2).count (some r1) = 1)
    ∧ (∀ (ps : List Predicate) (r0 r1 : ResponseSpec), r0 ≠ r1 →
      (Stub.concurrentRun ⟨ps, [r0, r1], 0⟩ 50).count (some r0) = 1
      ∧ (Stub.concurrentRun ⟨ps, [r0, r1], 0⟩ 50).count (some r1) = 49)
    ∧ (∀ (ps : List Predicate) (r : ResponseSpec),
      Stub.concurrentRun ⟨ps, [r], 0⟩ 50 = List.replicate 50 (some r)) := by
  have hne01 : ∀ (r0 r1 : ResponseSpec), r0 ≠ r1 → (some r0 ≠ some r1) := by
    intro r0 r1 h hc
    exact h (Option.some.inj hc)
  refine ⟨?_, ?_, ?_⟩
  · intro ps r0 r1 hne
    have h := consumeN_full ps [r0, r1] 0
    have hrun : Stub.concurrentRun ⟨ps, [r0, r1], 0⟩ 2 = [some r0, some r1] := by
      simpa using h
    rw [hrun]
    constructor
    · simp [List.count_cons, hne01 r0 r1 hne]
    · simp [List.count_cons, Ne.symm (hne01 r0 r1 hne)]
  · intro ps r0 r1 hne
    have h := consumeN_full ps [r0, r1] 48
    have hrun : Stub.concurrentRun ⟨ps, [r0, r1], 0⟩ 50 =
        some r0 :: some r1 :: List.replicate 48 (some r1) := by
      simpa using h
    rw [hrun]
    constructor
    · simp [List.count_cons, hne01 r0 r1 hne, List.count_replicate]
    · simp [List.count_cons, Ne.symm (hne01 r0 r1 hne), List.count_replicate]
  · intro ps r
    have h := consumeN_full ps [r] 49
    have hrun : Stub.concurrentRun ⟨ps, [r], 0⟩ 50 = some r :: List.replicate 49 (some r) := by
      simpa using h
    rw [hrun]
    simp [List.replicate_succ]

/-- Concrete run of the amended C8 theorem: two atomic requests at a fresh
two-entry stub observe each entry exactly once. -/
theorem concurrent_atomic_cursor_counts_witness :
    (ResponseSpec.is "A" ≠ ResponseSpec.is "B")
    ∧ ((Stub.concurrentRun ⟨[], [ResponseSpec.is "A", ResponseSpec.is "B"], 0⟩ 2).count
        (some (ResponseSpec.is "A")) = 1
      ∧ (Stub.concurrentRun ⟨[], [ResponseSpec.is "A", ResponseSpec.is "B"], 0⟩ 2).count
        (some (ResponseSpec.is "B")) = 1) :=
  ⟨by decide,
   concurrent_atomic_cursor_counts.1 [] (ResponseSpec.is "A") (ResponseSpec.is "B") (by decide)⟩

end Mountebank
